import Mathlib

/-!
Verification of the AI matching/ranking core of the scholarship-recommendation
application (`backend/services/gptMatchingService.js`).

The JavaScript service is shallowly embedded below:
* JS numbers are modelled as `Rat` (all arithmetic performed by the service is
  exact decimal arithmetic well inside the range where IEEE doubles are exact
  for these operations, so `Rat` is a faithful model of the values produced);
  `parseFloat(x) || 0` coercion is modelled by an `Option Rat` field defaulted
  to `0`.
* JS exceptions are modelled by the `Except`-style monad `JsM`; every operation
  of the original code that can throw (`JSON.parse`, calling `.map`/`.sort` on
  a non-array, property access on `null`, the external API call) is explicit.
* `JSON.parse` is modelled by a fuel-based recursive-descent parser `jsonParse`
  producing the `Json` inductive; the regex `/\[[\s\S]*\]/` used by the service
  is modelled by `regexScan` (leftmost match start, greedy `[\s\S]*`, i.e. the
  span from the first '[' to the last ']').
* The module-level `Map` cache is modelled by an association list with the
  `Map` operations used by the service (`get`, `set`, `delete`), threaded
  explicitly; `Date.now()` is an explicit `now : Nat` parameter.
-/

namespace GptMatching

/-! ## JS string primitives -/

/-- ASCII lower-casing of a character; models the effect of JS
`String.prototype.toLowerCase` on the ASCII range (the service only compares
course names and year-level labels, which are ASCII). -/
def charToLower (c : Char) : Char :=
  if 'A' ≤ c ∧ c ≤ 'Z' then Char.ofNat (c.toNat + 32) else c

/-- Lower-case a string character-wise (see `charToLower`). -/
def strToLower (s : String) : String :=
  String.mk (s.data.map charToLower)

/-- `needle` occurs as a contiguous substring of the list — helper for
`jsIncludes`. -/
def isSubstrList (needle : List Char) : List Char → Bool
  | [] => needle.isEmpty
  | c :: cs => needle.isPrefixOf (c :: cs) || isSubstrList needle cs

/-- Models JS `hay.includes(needle)`. -/
def jsIncludes (hay needle : String) : Bool :=
  isSubstrList needle.data hay.data

/-- Lexicographic `≤` on UTF code points; models the comparison used by JS
`Array.prototype.sort()` with no comparator (which compares the strings by
UTF-16 code units; the scholarship ids sorted by the cache key are ASCII, where
the two orders agree). -/
def lexLe : List Char → List Char → Bool
  | [], _ => true
  | _ :: _, [] => false
  | a :: as, b :: bs =>
    if a < b then true
    else if b < a then false
    else lexLe as bs

/-- The string order induced by `lexLe`, as a `Prop` relation so that
Mathlib's `List.insertionSort` machinery applies. -/
def StrLe (a b : String) : Prop := lexLe a.data b.data = true

instance : DecidableRel StrLe := fun a b =>
  inferInstanceAs (Decidable (lexLe a.data b.data = true))

/-! ## JS numbers -/

/-- Models the coercion `parseFloat(x) || 0` applied by the service to GPA
fields: a non-numeric field (`parseFloat` returns `NaN`) is represented by
`none` and coerced to `0`. -/
def numOr0 : Option Rat → Rat
  | some q => q
  | none => 0

/-- Models JS `Math.round` (round half toward positive infinity). -/
def jsRound (q : Rat) : Int :=
  Rat.floor (q + mkRat 1 2)

/-- Models `Math.max(lo, Math.min(hi, v))`. -/
def clampInt (lo hi v : Int) : Int :=
  max lo (min hi v)

/-! ## JSON values and `JSON.parse` -/

/-- JSON values (the possible results of `JSON.parse`).  Object fields are an
association list in property order. -/
inductive Json where
  | null : Json
  | bool : Bool → Json
  | num : Rat → Json
  | str : String → Json
  | arr : List Json → Json
  | obj : List (String × Json) → Json

/-- Look up an object field (first occurrence). -/
def lookupField (k : String) : List (String × Json) → Option Json
  | [] => none
  | (k2, v) :: fs => if k2 = k then some v else lookupField k fs

/-- Set an object field: overwrite in place if present (JS keeps the original
property position on overwrite), otherwise append. -/
def setField (k : String) (v : Json) : List (String × Json) → List (String × Json)
  | [] => [(k, v)]
  | (k2, v2) :: fs => if k2 = k then (k, v) :: fs else (k2, v2) :: setField k v fs

/-- JSON whitespace. -/
def isJsonWs (c : Char) : Bool :=
  c = ' ' ∨ c = '\t' ∨ c = '\n' ∨ c = '\r'

def skipWs : List Char → List Char
  | [] => []
  | c :: cs => if isJsonWs c then skipWs cs else c :: cs

/-- Parse the digits of a natural number, returning the digits' value, the
number of digits and the rest. -/
def parseDigits : List Char → Nat → Nat → (Nat × Nat × List Char)
  | c :: cs, acc, n =>
    if c.isDigit then parseDigits cs (acc * 10 + (c.toNat - 48)) (n + 1)
    else (acc, n, c :: cs)
  | [], acc, n => (acc, n, [])

/-- Parse the integer part of a JSON number (`0` or a nonzero digit followed by
digits; JSON rejects leading zeros). -/
def parseIntPart : List Char → Option (Nat × List Char)
  | '0' :: cs => some (0, cs)
  | c :: cs =>
    if c.isDigit ∧ c ≠ '0' then
      let r := parseDigits cs (c.toNat - 48) 1
      some (r.1, r.2.2)
    else none
  | [] => none

/-- Parse the optional fraction part, returning (value, number of digits, rest). -/
def parseFracPart : List Char → Option (Nat × Nat × List Char)
  | '.' :: cs =>
    match cs with
    | c :: _ =>
      if c.isDigit then some (parseDigits cs 0 0)
      else none
    | [] => none
  | cs => some (0, 0, cs)

/-- Parse the optional exponent part, returning (exponent, rest). -/
def parseExpPart : List Char → Option (Int × List Char)
  | c :: cs =>
    if c = 'e' ∨ c = 'E' then
      match cs with
      | '+' :: cs2 =>
        match cs2 with
        | d :: _ => if d.isDigit then
            let r := parseDigits cs2 0 0
            some ((r.1 : Int), r.2.2)
          else none
        | [] => none
      | '-' :: cs2 =>
        match cs2 with
        | d :: _ => if d.isDigit then
            let r := parseDigits cs2 0 0
            some (-(r.1 : Int), r.2.2)
          else none
        | [] => none
      | d :: cs2 =>
        if d.isDigit then
          let r := parseDigits (d :: cs2) 0 0
          some ((r.1 : Int), r.2.2)
        else none
      | [] => none
    else some (0, c :: cs)
  | [] => some (0, [])

/-- Assemble the rational value of a parsed JSON number
`sign * intPart.fracDigits * 10^exp`. -/
def mkJsonNum (neg : Bool) (ip : Nat) (frac : Nat) (fracLen : Nat) (e : Int) : Rat :=
  let m : Nat := ip * 10 ^ fracLen + frac
  let n : Int := if neg then -(m : Int) else (m : Int)
  let e2 : Int := e - (fracLen : Int)
  if 0 ≤ e2 then mkRat (n * (10 ^ e2.toNat : Nat)) 1
  else mkRat n (10 ^ (-e2).toNat)

/-- Parse a JSON number. -/
def parseNumber (cs : List Char) : Option (Rat × List Char) :=
  let signed : Bool × List Char :=
    match cs with
    | '-' :: cs2 => (true, cs2)
    | _ => (false, cs)
  match parseIntPart signed.2 with
  | none => none
  | some (ip, cs3) =>
    match parseFracPart cs3 with
    | none => none
    | some (frac, fracLen, cs4) =>
      match parseExpPart cs4 with
      | none => none
      | some (e, cs5) => some (mkJsonNum signed.1 ip frac fracLen e, cs5)

/-- Hexadecimal digit test for `\uXXXX` escapes. -/
def isHexDig (c : Char) : Bool :=
  c.isDigit ∨ ('a' ≤ c ∧ c ≤ 'f') ∨ ('A' ≤ c ∧ c ≤ 'F')

/-- Parse one escape sequence (after the backslash). -/
def parseEscape : List Char → Option (Char × List Char)
  | '"' :: cs => some ('"', cs)
  | '\\' :: cs => some ('\\', cs)
  | '/' :: cs => some ('/', cs)
  | 'b' :: cs => some ('\x08', cs)
  | 'f' :: cs => some ('\x0c', cs)
  | 'n' :: cs => some ('\n', cs)
  | 'r' :: cs => some ('\r', cs)
  | 't' :: cs => some ('\t', cs)
  | 'u' :: a :: b :: c :: d :: cs =>
    if isHexDig a ∧ isHexDig b ∧ isHexDig c ∧ isHexDig d then
      let hv : Char → Nat := fun x =>
        if x.isDigit then x.toNat - 48
        else if 'a' ≤ x ∧ x ≤ 'f' then x.toNat - 87
        else x.toNat - 55
      some (Char.ofNat (((hv a * 16 + hv b) * 16 + hv c) * 16 + hv d), cs)
    else none
  | _ => none

/-- Parse the body of a JSON string after the opening quote (fuelled). -/
def parseStringBody : Nat → List Char → Option (List Char × List Char)
  | 0, _ => none
  | _, [] => none
  | fuel + 1, c :: cs =>
    if c = '"' then some ([], cs)
    else if c = '\\' then
      match parseEscape cs with
      | none => none
      | some (e, cs2) =>
        match parseStringBody fuel cs2 with
        | none => none
        | some (s, rest) => some (e :: s, rest)
    else if c.toNat < 32 then none
    else
      match parseStringBody fuel cs with
      | none => none
      | some (s, rest) => some (c :: s, rest)

mutual

/-- Parse one JSON value (fuelled recursive descent). -/
def parseValue : Nat → List Char → Option (Json × List Char)
  | 0, _ => none
  | _, [] => none
  | fuel + 1, c :: cs =>
    if c = 'n' then
      match cs with
      | 'u' :: 'l' :: 'l' :: rest => some (.null, rest)
      | _ => none
    else if c = 't' then
      match cs with
      | 'r' :: 'u' :: 'e' :: rest => some (.bool true, rest)
      | _ => none
    else if c = 'f' then
      match cs with
      | 'a' :: 'l' :: 's' :: 'e' :: rest => some (.bool false, rest)
      | _ => none
    else if c = '"' then
      match parseStringBody (cs.length + 1) cs with
      | none => none
      | some (s, rest) => some (.str (String.mk s), rest)
    else if c = '[' then parseArrayItems fuel (skipWs cs) true []
    else if c = '\x7b' then parseObjMembers fuel (skipWs cs) true []
    else
      match parseNumber (c :: cs) with
      | none => none
      | some (q, rest) => some (.num q, rest)

/-- Parse the items of a JSON array after the opening bracket. -/
def parseArrayItems : Nat → List Char → Bool → List Json → Option (Json × List Char)
  | 0, _, _, _ => none
  | _, [], _, _ => none
  | fuel + 1, c :: cs, first, acc =>
    if c = ']' ∧ first then some (.arr [], cs)
    else
      match parseValue fuel (c :: cs) with
      | none => none
      | some (v, rest) =>
        match skipWs rest with
        | ',' :: rest2 => parseArrayItems fuel (skipWs rest2) false (acc ++ [v])
        | ']' :: rest2 => some (.arr (acc ++ [v]), rest2)
        | _ => none

/-- Parse the members of a JSON object after the opening brace. -/
def parseObjMembers : Nat → List Char → Bool → List (String × Json) → Option (Json × List Char)
  | 0, _, _, _ => none
  | _, [], _, _ => none
  | fuel + 1, c :: cs, first, acc =>
    if c = '\x7d' ∧ first then some (.obj [], cs)
    else if c = '"' then
      match parseStringBody (cs.length + 1) cs with
      | none => none
      | some (k, rest) =>
        match skipWs rest with
        | ':' :: rest2 =>
          match parseValue fuel (skipWs rest2) with
          | none => none
          | some (v, rest3) =>
            -- duplicate keys: later occurrence overwrites (JS `JSON.parse`)
            let acc2 := setField (String.mk k) v acc
            match skipWs rest3 with
            | ',' :: rest4 => parseObjMembers fuel (skipWs rest4) false acc2
            | '\x7d' :: rest4 => some (.obj acc2, rest4)
            | _ => none
        | _ => none
    else none

end

/-- Models `JSON.parse`: parse the whole input as a single JSON value,
allowing surrounding whitespace, rejecting trailing content. -/
def jsonParse (s : String) : Option Json :=
  match parseValue (2 * s.data.length + 8) (skipWs s.data) with
  | none => none
  | some (j, rest) => if (skipWs rest).isEmpty then some j else none

/-! ## The regex `/\[[\s\S]*\]/` and the two response-parsing policies -/

/-- The prefix of `cs` that ends at the last `']'` of `cs` (inclusive), if any:
the greedy continuation `[\s\S]*\]` of the regex once a starting `'['` has been
found. -/
def takeToLastClose : List Char → Option (List Char)
  | [] => none
  | c :: cs =>
    match takeToLastClose cs with
    | some r => some (c :: r)
    | none => if c = ']' then some [c] else none

/-- Models `str.match(/\[[\s\S]*\]/)`: the regex engine tries successive start
positions left to right; at a position holding `'['` the greedy `[\s\S]*`
then backtracks to the last `']'` of the remaining input.  Returns the matched
substring. -/
def regexScan : List Char → Option (List Char)
  | [] => none
  | c :: cs =>
    if c = '[' then
      match takeToLastClose cs with
      | some r => some ('[' :: r)
      | none => regexScan cs
    else regexScan cs

/-- JS error values relevant to the embedded code paths. -/
inductive JsError where
  | typeError : JsError
  | syntaxError : JsError
  | apiError : JsError
deriving DecidableEq

/-- Exception monad for the embedded JS code. -/
abbrev JsM (α : Type) := Except JsError α

/-- Models `try { body } catch (e) { handler }`. -/
def tryCatchJs {α : Type} (body : JsM α) (handler : JsError → JsM α) : JsM α :=
  match body with
  | .ok a => .ok a
  | .error e => handler e

/-- Models `JSON.parse` as the throwing operation it is in JS. -/
def jsonParseJs (s : String) : JsM Json :=
  match jsonParse s with
  | some j => .ok j
  | none => .error .syntaxError

/-- The response parsing performed by both `matchStudentToScholarships`
(lines 196–203) and `rankApplicantsForScholarship` (lines 314–320):
`gptResponse.match(/\[[\s\S]*\]/)` is tried FIRST; if it matches, the matched
substring is `JSON.parse`d, otherwise the whole body is `JSON.parse`d. -/
def parseGptArray (body : String) : JsM Json :=
  match regexScan body.data with
  | some m => jsonParseJs (String.mk m)
  | none => jsonParseJs body

/-- Whether a string is a well-formed JSON array in its entirety. -/
def wellFormedArrayStr (cs : List Char) : Bool :=
  match jsonParse (String.mk cs) with
  | some (Json.arr _) => true
  | _ => false

/-- Length of the shortest prefix of `cs` that is a well-formed JSON array. -/
def shortestArrayPrefixLen (cs : List Char) : Option Nat :=
  (List.range (cs.length + 1)).find? (fun n => wellFormedArrayStr (cs.take n))

/-- The first (leftmost start, then shortest) well-formed JSON array substring. -/
def firstWellFormedArray : List Char → Option (List Char)
  | [] => none
  | c :: cs =>
    match shortestArrayPrefixLen (c :: cs) with
    | some n => some ((c :: cs).take n)
    | none => firstWellFormedArray cs

/-- Modelled from the spec: the response-parsing POLICY stated in spec §4.2
("attempt strict parse of the full response body as JSON; on failure, attempt
to extract the first well-formed JSON array substring (bracket-matched) and
parse that; on failure, treat as a hard contract violation").  This definition
follows the spec's words and exists to be compared with `parseGptArray`, the
parser the code actually implements. -/
def specPolicyParse (body : String) : Option Json :=
  match jsonParse body with
  | some j => some j
  | none =>
    match firstWellFormedArray body.data with
    | some sub => jsonParse (String.mk sub)
    | none => none

/-! ## Data model (typed input shapes used by the service) -/

/-- Student assessment data, with the fields read by the service.  Fields the
code guards with optional chaining (`?.`) or coerces with `parseFloat(x) || 0`
are `Option`-typed (`none` models `undefined`/non-numeric). -/
structure StudentAssessment where
  fullName : String
  course : Option String
  yearLevel : Option String
  gpa : Option Rat
  incomeRange : String
  skills : Option String
  scholarshipType : String
  involvement : Option String

/-- Scholarship data, with the fields read by the service.  `eligibleCourses`
and `eligibleYearLevels` may be absent (`none` models `undefined`). -/
structure Scholarship where
  id : String
  scholarshipName : String
  organizationName : String
  scholarshipType : String
  minGPA : Option Rat
  eligibleCourses : Option (List String)
  eligibleYearLevels : Option (List String)
  incomeLimit : Option Rat
  requiredSkills : Option (List String)
  slotsAvailable : Int
  slotsFilled : Option Int

/-- Application data read by the ranking path. -/
structure Application where
  id : String
  studentName : String
  course : Option String
  yearLevel : Option String
  gpa : Option Rat
  incomeRange : String
  skills : Option String
  applicationLetter : Option String
  essayReason : Option String
  involvement : Option String

/-- The per-criterion booleans of a fallback match. -/
structure MatchDetails where
  gpaMatch : Bool
  courseMatch : Bool
  yearLevelMatch : Bool
  incomeMatch : Bool
  skillsMatch : Bool
deriving DecidableEq

/-- One entry of the `whyMatched` array (`{ type, text }`). -/
structure Reason where
  type : String
  text : String
deriving DecidableEq

/-- A fallback MatchResult as assembled by `performBasicMatching`. -/
structure MatchResult where
  scholarshipId : String
  scholarshipName : String
  matchScore : Int
  eligible : Bool
  matchDetails : MatchDetails
  explanation : String
  whyMatched : List Reason
  recommendation : String
  source : String
  generatedBy : String
deriving DecidableEq

/-- The `scoreBreakdown` of a fallback RankResult. -/
structure ScoreBreakdown where
  academicScore : Int
  financialNeedScore : Int
  skillsScore : Int
  essayScore : Int
  overallFitScore : Int
deriving DecidableEq

/-- A fallback RankResult as assembled by `performBasicRanking`.  In JS the
`rank` property is attached only by the final `forEach`; the field is carried
here from the start, initialised to `0`. -/
structure RankResult where
  applicationId : String
  studentName : String
  rankScore : Int
  rank : Int
  eligible : Bool
  scoreBreakdown : ScoreBreakdown
  strengths : List String
  weaknesses : List String
  recommendation : String
deriving DecidableEq

/-! ## Rendering numbers and optional strings into template literals -/

/-- Fraction digits of `r / d` in decimal, with fuel (JS prints the shortest
round-trip decimal of a double; the values interpolated by this service are
small terminating decimals, for which this is the exact expansion). -/
def fracDigitsAux : Nat → Nat → Nat → List Char
  | 0, _, _ => []
  | fuel + 1, r, d =>
    if r = 0 then []
    else Char.ofNat (48 + r * 10 / d) :: fracDigitsAux fuel (r * 10 % d) d

/-- Decimal rendering of a rational, modelling JS number-to-string conversion
inside template literals. -/
def ratToJsString (q : Rat) : String :=
  let sign : String := if q.num < 0 then "-" else ""
  let n := q.num.natAbs
  if q.den = 1 then sign ++ Nat.repr n
  else sign ++ Nat.repr (n / q.den) ++ "." ++ String.mk (fracDigitsAux 17 (n % q.den) q.den)

/-- Interpolating a possibly-`undefined` string into a template literal. -/
def optStr : Option String → String
  | some s => s
  | none => "undefined"

/-- Models `arr[0] || dflt` on an array of strings (an empty first element is
falsy and also selects the default). -/
def headOrElse (l : List String) (dflt : String) : String :=
  match l with
  | [] => dflt
  | x :: _ => if x = "" then dflt else x

/-! ## Fallback scoring: `performBasicMatching` (lines 444–534) -/

/-- The recommendation tier thresholds of lines 508–511. -/
def recommendationOfScore (s : Int) : String :=
  if s ≥ 80 then "Highly Recommended"
  else if s ≥ 60 then "Recommended"
  else if s ≥ 40 then "Consider"
  else "Not Recommended"

/-- The per-course test of lines 470–473:
`student.course?.toLowerCase().includes(course.toLowerCase()) ||
 course.toLowerCase().includes(student.course?.toLowerCase() || "")`
(an `undefined` student course short-circuits the first disjunct to
`undefined`, i.e. false, and contributes `""` to the second). -/
def courseTest (stuCourse : Option String) (course : String) : Bool :=
  (match stuCourse with
   | some c => jsIncludes (strToLower c) (strToLower course)
   | none => false) ||
  jsIncludes (strToLower course)
    (match stuCourse with
     | some c => strToLower c
     | none => "")

/-- The per-year-level test of line 487:
`student.yearLevel?.includes(year) || year.includes(student.yearLevel || "")`. -/
def yearTest (stuYear : Option String) (year : String) : Bool :=
  (match stuYear with
   | some yl => jsIncludes yl year
   | none => false) ||
  jsIncludes year (stuYear.getD "")

/-- JS truthiness test `list && list.length > 0` for an optional list. -/
def restrictedList {α : Type} : Option (List α) → Bool
  | some (_ :: _) => true
  | _ => false

/-- `generateWhyMatchedExplanation` (lines 378–436): returns the summary
string and the `whyMatched` reasons array. -/
def generateWhyMatchedExplanation (student : StudentAssessment) (sch : Scholarship)
    (matchDetails : MatchDetails) (matchScore : Int) : String × List Reason :=
  let studentGPA := numOr0 student.gpa
  let minGPA := numOr0 sch.minGPA
  let gpaS := ratToJsString studentGPA
  let minS := ratToJsString minGPA
  let pGpa : List String :=
    if matchDetails.gpaMatch then
      if studentGPA ≥ minGPA + mkRat 1 2 then
        ["Your GPA (" ++ gpaS ++ ") exceeds the requirement (" ++ minS ++ ") by a significant margin"]
      else
        ["Your GPA (" ++ gpaS ++ ") meets the minimum requirement of " ++ minS]
    else []
  let nGpa : List String :=
    if matchDetails.gpaMatch then []
    else ["Your GPA (" ++ gpaS ++ ") is below the minimum requirement of " ++ minS]
  let pCourse : List String :=
    if matchDetails.courseMatch then
      if restrictedList sch.eligibleCourses then
        ["Your course (" ++ optStr student.course ++ ") is eligible for this scholarship"]
      else
        ["This scholarship is open to all courses including " ++ optStr student.course]
    else []
  let nCourse : List String :=
    if matchDetails.courseMatch then []
    else ["Your course (" ++ optStr student.course ++ ") may not be in the list of eligible programs"]
  let pYear : List String :=
    if matchDetails.yearLevelMatch then
      ["Your year level (" ++ optStr student.yearLevel ++ ") qualifies for this scholarship"]
    else []
  let nYear : List String :=
    if matchDetails.yearLevelMatch then []
    else if restrictedList sch.eligibleYearLevels then
      ["This scholarship is for " ++ String.intercalate ", " (sch.eligibleYearLevels.getD []) ++ " students"]
    else []
  let pType : List String :=
    if student.scholarshipType = sch.scholarshipType then
      ["This " ++ sch.scholarshipType ++ " scholarship matches your preference"]
    else []
  let positives := pGpa ++ pCourse ++ pYear ++ pType
  let negatives := nGpa ++ nCourse ++ nYear
  let reasons :=
    positives.map (fun p => Reason.mk "positive" p) ++
    negatives.map (fun n => Reason.mk "negative" n)
  let summary :=
    if matchScore ≥ 80 then
      "Excellent match! " ++ headOrElse positives "You meet the key requirements for this scholarship."
    else if matchScore ≥ 60 then
      "Good match. " ++ headOrElse positives "You meet several requirements." ++ " " ++
        (if negatives.length > 0 then
          "However, " ++ strToLower (headOrElse negatives "") ++ "."
        else "")
    else if matchScore ≥ 40 then
      "Partial match. " ++ headOrElse negatives "Some requirements may not be met." ++ " " ++
        (if positives.length > 0 then
          "On the positive side, " ++ strToLower (headOrElse positives "") ++ "."
        else "")
    else
      "Limited match. " ++ String.intercalate ". " negatives
  (summary, reasons)

/-- The body of `performBasicMatching`'s loop for one scholarship
(lines 448–527), producing the pushed MatchResult. -/
def scoreMatchFB (sa : StudentAssessment) (sch : Scholarship) : MatchResult :=
  let studentGPA := numOr0 sa.gpa
  let minGPA := numOr0 sch.minGPA
  let gpaOk : Bool := decide (studentGPA ≥ minGPA)
  let s1 : Int := if gpaOk then 50 + 15 else 50 - 20
  let courseRestricted := restrictedList sch.eligibleCourses
  let courseOk : Bool :=
    if courseRestricted then (sch.eligibleCourses.getD []).any (courseTest sa.course)
    else true
  let s2 : Int :=
    if courseRestricted then (if courseOk then s1 + 15 else s1 - 15)
    else s1 + 10
  let yearRestricted := restrictedList sch.eligibleYearLevels
  let yearOk : Bool :=
    if yearRestricted then (sch.eligibleYearLevels.getD []).any (yearTest sa.yearLevel)
    else true
  let s3 : Int :=
    if yearRestricted then (if yearOk then s2 + 10 else s2 - 10)
    else s2 + 5
  let s4 : Int := if sa.scholarshipType = sch.scholarshipType then s3 + 10 else s3
  let matchScore := clampInt 0 100 s4
  let details : MatchDetails :=
    { gpaMatch := gpaOk, courseMatch := courseOk, yearLevelMatch := yearOk,
      incomeMatch := true, skillsMatch := true }
  let why := generateWhyMatchedExplanation sa sch details matchScore
  { scholarshipId := sch.id
    scholarshipName := sch.scholarshipName
    matchScore := matchScore
    eligible := gpaOk && courseOk
    matchDetails := details
    explanation := why.1
    whyMatched := why.2
    recommendation := recommendationOfScore matchScore
    source := "fallback"
    generatedBy := "algorithm" }

/-- Descending-by-`matchScore` order used to model the stable
`matches.sort((a, b) => b.matchScore - a.matchScore)` of line 531. -/
def MatchLeR (a b : MatchResult) : Prop := b.matchScore ≤ a.matchScore

instance : DecidableRel MatchLeR := fun a b =>
  inferInstanceAs (Decidable (b.matchScore ≤ a.matchScore))

instance : IsTotal MatchResult MatchLeR :=
  ⟨fun a b => (Int.le_total b.matchScore a.matchScore).elim Or.inl Or.inr⟩

instance : IsTrans MatchResult MatchLeR :=
  ⟨fun _ _ _ h1 h2 => le_trans h2 h1⟩

/-- `performBasicMatching` (lines 444–534): score every scholarship, then sort
by matchScore descending.  `Array.prototype.sort` is required to be stable and
the comparator is consistent on integer scores, so the stable insertion sort
is an exact model of the returned order. -/
def performBasicMatching (sa : StudentAssessment) (schs : List Scholarship) : List MatchResult :=
  List.insertionSort MatchLeR (schs.map (scoreMatchFB sa))

/-! ## Fallback ranking: `performBasicRanking` (lines 542–591) -/

/-- The fixed ascending income-range label list of line 555. -/
def incomeRanges : List String :=
  ["Below ₱10,000", "₱10,000 - ₱20,000", "₱20,000 - ₱30,000", "₱30,000 - ₱50,000", "Above ₱50,000"]

/-- Models `Array.prototype.indexOf` (which returns `-1` on a miss; the miss is
represented by `none`). -/
def idxOf? (s : String) : List String → Option Nat
  | [] => none
  | x :: xs => if x = s then some 0 else (idxOf? s xs).map (· + 1)

/-- The body of `performBasicRanking`'s map for one application
(lines 544–580). -/
def scoreApplicantFB (sch : Scholarship) (app : Application) : RankResult :=
  let gpa := numOr0 app.gpa
  let minGPA := numOr0 sch.minGPA
  let base : Rat := 50
  let afterGpa : Rat := if gpa ≥ minGPA then base + gpa / 4 * 40 else base
  let incomeIdx := idxOf? app.incomeRange incomeRanges
  let afterIncome : Rat :=
    match incomeIdx with
    | some i => afterGpa + ((5 : Rat) - (i : Rat)) * 4
    | none => afterGpa
  let rankScore : Int := clampInt 0 100 (jsRound afterIncome)
  { applicationId := app.id
    studentName := app.studentName
    rankScore := rankScore
    rank := 0
    eligible := decide (gpa ≥ minGPA)
    scoreBreakdown :=
      { academicScore := jsRound (gpa / 4 * 100)
        financialNeedScore :=
          match incomeIdx with
          | some i => ((5 : Int) - (i : Int)) * 20
          | none => 50
        skillsScore := 50
        essayScore := 50
        overallFitScore := rankScore }
    strengths := if gpa ≥ mkRat 7 2 then ["Strong academic performance"] else []
    weaknesses := if gpa < minGPA then ["GPA below requirement"] else []
    recommendation := if rankScore ≥ 70 then "Recommended for Approval" else "Needs Review" }

/-- Descending-by-`rankScore` order modelling the stable
`rankings.sort((a, b) => b.rankScore - a.rankScore)` of line 583. -/
def RankLeR (a b : RankResult) : Prop := b.rankScore ≤ a.rankScore

instance : DecidableRel RankLeR := fun a b =>
  inferInstanceAs (Decidable (b.rankScore ≤ a.rankScore))

instance : IsTotal RankResult RankLeR :=
  ⟨fun a b => (Int.le_total b.rankScore a.rankScore).elim Or.inl Or.inr⟩

instance : IsTrans RankResult RankLeR :=
  ⟨fun _ _ _ h1 h2 => le_trans h2 h1⟩

/-- The rank-assignment `forEach` of lines 586–589 (`r.rank = index + 1`),
starting at index `n`. -/
def assignRanksFrom (n : Nat) : List RankResult → List RankResult
  | [] => []
  | r :: rs => { r with rank := (n : Int) + 1 } :: assignRanksFrom (n + 1) rs

/-- `performBasicRanking` (lines 542–591): score every application, sort by
rankScore descending (stable), assign dense 1-based ranks. -/
def performBasicRanking (apps : List Application) (sch : Scholarship) : List RankResult :=
  assignRanksFrom 0 (List.insertionSort RankLeR (apps.map (scoreApplicantFB sch)))

/-! ## The recommendation cache (lines 14–65) -/

/-- The possible payloads returned by `matchStudentToScholarships` (JS returns
plain arrays; the tag records whether the array holds tagged model output or
fallback MatchResults, which is also what the cache stores). -/
inductive MatchesVal where
  | ai : List Json → MatchesVal
  | fb : List MatchResult → MatchesVal

/-- A cache entry `{ data, timestamp }` (line 44–47). -/
structure CacheEntry where
  data : MatchesVal
  timestamp : Nat

/-- The module-level `Map`, modelled as an association list in insertion
order with unique keys maintained by `mapSet`. -/
abbrev Cache := List (String × CacheEntry)

/-- `CACHE_TTL = 30 * 60 * 1000` (line 16). -/
def CACHE_TTL : Nat := 30 * 60 * 1000

/-- `Map.prototype.get`. -/
def mapGet (cache : Cache) (k : String) : Option CacheEntry :=
  match cache.find? (fun p => p.1 = k) with
  | some p => some p.2
  | none => none

/-- `Map.prototype.delete`. -/
def mapDelete (cache : Cache) (k : String) : Cache :=
  cache.filter (fun p => ¬ p.1 = k)

/-- `Map.prototype.set`: overwrite in place if the key exists (keeping its
position, as JS Maps do), else append. -/
def mapSet (cache : Cache) (k : String) (e : CacheEntry) : Cache :=
  if cache.any (fun p => p.1 = k) then
    cache.map (fun p => if p.1 = k then (k, e) else p)
  else cache ++ [(k, e)]

/-- `generateCacheKey` (lines 21–24): sort the scholarship ids (JS default
sort: lexicographic by code units), join with commas, prefix the student id. -/
def generateCacheKey (studentId : String) (scholarshipIds : List String) : String :=
  studentId ++ ":" ++ String.intercalate "," (List.insertionSort StrLe scholarshipIds)

/-- `getCachedRecommendation` (lines 29–38): a valid entry
(`now - timestamp < CACHE_TTL`) is returned; an expired entry is deleted.
Returns the result together with the possibly-updated map. -/
def getCachedRecommendation (cache : Cache) (now : Nat) (key : String) :
    Option MatchesVal × Cache :=
  match mapGet cache key with
  | some e =>
    if now - e.timestamp < CACHE_TTL then (some e.data, cache)
    else (none, mapDelete cache key)
  | none => (none, cache)

/-- The cleanup sweep of lines 50–57: once the map exceeds 100 entries, delete
every expired entry (TTL-driven, not LRU). -/
def sweepExpired (cache : Cache) (now : Nat) : Cache :=
  cache.filter (fun p => ¬ now - p.2.timestamp > CACHE_TTL)

/-- `setCachedRecommendation` (lines 43–58). -/
def setCachedRecommendation (cache : Cache) (key : String) (data : MatchesVal) (now : Nat) :
    Cache :=
  let c1 := mapSet cache key ⟨data, now⟩
  if c1.length > 100 then sweepExpired c1 now else c1

/-! ## The model path of `matchStudentToScholarships` (lines 115–236) -/

/-- `{...match, source: 'ai', generatedBy: 'gpt'}` (lines 206–210).  Spreading
an object copies its properties (an overwritten key keeps its position);
spreading a string yields its indexed characters; spreading any other
primitive yields no own properties. -/
def addSourceAi (j : Json) : Json :=
  let tag := fun fs => setField "generatedBy" (.str "gpt") (setField "source" (.str "ai") fs)
  match j with
  | .obj fs => .obj (tag fs)
  | .str s => .obj (tag (s.data.enum.map (fun p => (Nat.repr p.1, Json.str (String.mk [p.2])))))
  | _ => .obj (tag [])

/-- `matches.map(...)` tagging (lines 206–210); calling `.map` on any
non-array `JSON.parse` result throws a TypeError. -/
def jsArrayMapTagAi (j : Json) : JsM (List Json) :=
  match j with
  | .arr xs => .ok (xs.map addSourceAi)
  | _ => .error .typeError

/-- The protected region of the inner `try` of lines 196–210: parse the
response, then tag each element. -/
def parseAndTag (body : String) : JsM (List Json) :=
  match parseGptArray body with
  | .ok j => jsArrayMapTagAi j
  | .error e => .error e

/-- The outcome of `callGPTAPI` (lines 73–106), abstracting the external
world: `.error` covers every throwing case (missing `OPENAI_API_KEY`, network
failure, non-2xx response, malformed success envelope), `.ok body` is the
returned message content. -/
def liftGpt : Except Unit String → JsM String
  | .ok s => .ok s
  | .error _ => .error .apiError

/-- `matchStudentToScholarships` after the cache check: the outer `try` of
lines 191–235.  On parse/tag failure the inner `catch` (lines 212–222) falls
back AND caches the fallback; the outer `catch` (lines 233–235) only falls
back, without caching. -/
def matchAfterCacheCheck (sa : StudentAssessment) (schs : List Scholarship)
    (sid : Option String) (gpt : Except Unit String) (cache : Cache) (now : Nat) :
    JsM (MatchesVal × Cache) :=
  tryCatchJs
    (match liftGpt gpt with
     | .error e => .error e
     | .ok body =>
       match parseAndTag body with
       | .ok ms =>
         -- lines 226–231: cache the tagged model results, return them
         match sid with
         | some studentId =>
           .ok (.ai ms,
             setCachedRecommendation cache
               (generateCacheKey studentId (schs.map (fun s => s.id))) (.ai ms) now)
         | none => .ok (.ai ms, cache)
       | .error _ =>
         -- inner catch, lines 212–222: fallback, cached
         let fb := performBasicMatching sa schs
         match sid with
         | some studentId =>
           .ok (.fb fb,
             setCachedRecommendation cache
               (generateCacheKey studentId (schs.map (fun s => s.id))) (.fb fb) now)
         | none => .ok (.fb fb, cache))
    (fun _ => .ok (.fb (performBasicMatching sa schs), cache))

/-- `matchStudentToScholarships` (lines 115–236).  The external call and the
current clock are explicit parameters; the function returns the result
together with the updated cache. -/
def matchStudentToScholarships (sa : StudentAssessment) (schs : List Scholarship)
    (sid : Option String) (gpt : Except Unit String) (cache : Cache) (now : Nat) :
    JsM (MatchesVal × Cache) :=
  match sid with
  | some studentId =>
    match getCachedRecommendation cache now
        (generateCacheKey studentId (schs.map (fun s => s.id))) with
    | (some cachedData, c2) => .ok (cachedData, c2)
    | (none, c2) => matchAfterCacheCheck sa schs (some studentId) gpt c2 now
  | none => matchAfterCacheCheck sa schs none gpt cache now

/-! ## The model path of `rankApplicantsForScholarship` (lines 244–335) -/

/-- Property access `j.rankScore`: throws on `null`, yields the field on an
object (or `undefined` = `none`), `undefined` on other values. -/
def jsGetProp (j : Json) (k : String) : JsM (Option Json) :=
  match j with
  | .null => .error .typeError
  | .obj fs => .ok (lookupField k fs)
  | _ => .ok none

mutual

/-- Rendering of a JSON value inside `Array.prototype.join` (used by the
ToNumber coercion of arrays): `null` renders empty, nested arrays join
recursively, objects render as `[object Object]`. -/
def elemStr : Json → String
  | .null => ""
  | .bool b => if b then "true" else "false"
  | .num q => ratToJsString q
  | .str s => s
  | .arr xs => String.intercalate "," (elemStrList xs)
  | .obj _ => "[object Object]"

def elemStrList : List Json → List String
  | [] => []
  | x :: xs => elemStr x :: elemStrList xs

end

/-- ToNumber of a string: trimmed empty string is `0`, otherwise a decimal
numeric literal (optionally signed, optionally fractional/exponent);
anything else is NaN (`none`).  (`Infinity` and radix prefixes are not
modelled; the service never produces them.) -/
def jsStrToNum (s : String) : Option Rat :=
  let t := ((s.data.dropWhile isJsonWs).reverse.dropWhile isJsonWs).reverse
  if t.isEmpty then some 0
  else
    let signed : Bool × List Char :=
      match t with
      | '+' :: r => (false, r)
      | '-' :: r => (true, r)
      | _ => (false, t)
    let p := parseDigits signed.2 0 0
    match p.2.2 with
    | '.' :: r2 =>
      let pf := parseDigits r2 0 0
      if p.2.1 = 0 ∧ pf.2.1 = 0 then none
      else
        match parseExpPart pf.2.2 with
        | some (e, []) => some (mkJsonNum signed.1 p.1 pf.1 pf.2.1 e)
        | _ => none
    | rest =>
      if p.2.1 = 0 then none
      else
        match parseExpPart rest with
        | some (e, []) => some (mkJsonNum signed.1 p.1 0 0 e)
        | _ => none

/-- JS ToNumber of a property value (`none` on the left is `undefined`, which
coerces to NaN = `none` on the right). -/
def jsToNumberOpt : Option Json → Option Rat
  | none => none
  | some .null => some 0
  | some (.bool b) => some (if b then 1 else 0)
  | some (.num q) => some q
  | some (.str s) => jsStrToNum s
  | some (.arr xs) => jsStrToNum (String.intercalate "," (elemStrList xs))
  | some (.obj _) => none

/-- The comparator `(a, b) => b.rankScore - a.rankScore` of line 326: the left
operand is evaluated first (throwing on `null` elements); a NaN result is
replaced by `+0` by the ECMAScript sort algorithm. -/
def rankComparator (a b : Json) : JsM Rat :=
  match jsGetProp b "rankScore" with
  | .error e => .error e
  | .ok pb =>
    match jsGetProp a "rankScore" with
    | .error e => .error e
    | .ok pa =>
      .ok (match jsToNumberOpt pb, jsToNumberOpt pa with
           | some x, some y => x - y
           | _, _ => 0)

/-- Stable insertion of `x`: skip over `y` while `comparator(x, y) > 0`. -/
def insertJs (x : Json) : List Json → JsM (List Json)
  | [] => .ok [x]
  | y :: ys =>
    match rankComparator x y with
    | .error e => .error e
    | .ok c =>
      if 0 < c then
        match insertJs x ys with
        | .error e => .error e
        | .ok r => .ok (y :: r)
      else .ok (x :: y :: ys)

/-- `rankings.sort(comparator)`, modelled as a stable insertion sort.
ECMAScript requires the result to be stable and sorted w.r.t. a consistent
comparator (the call sequence, and hence the order in which comparator
exceptions surface, is implementation-defined). -/
def sortJsM : List Json → JsM (List Json)
  | [] => .ok []
  | x :: xs =>
    match sortJsM xs with
    | .error e => .error e
    | .ok s => insertJs x s

/-- Calling `.sort` on a non-array `JSON.parse` result throws a TypeError. -/
def jsToArray (j : Json) : JsM (List Json) :=
  match j with
  | .arr xs => .ok xs
  | _ => .error .typeError

/-- `r.rank = index + 1` (line 328): sets the property on an object; on a
primitive the sloppy-mode assignment is a silent no-op (on an array it would
attach a non-index property, invisible at the JSON level modelled here). -/
def setRankJson (j : Json) (n : Nat) : Json :=
  match j with
  | .obj fs => .obj (setField "rank" (.num ((n + 1 : Nat) : Rat)) fs)
  | other => other

/-- The `forEach` of lines 327–329, starting at index `n`. -/
def assignRanksJsonFrom (n : Nat) : List Json → List Json
  | [] => []
  | x :: xs => setRankJson x n :: assignRanksJsonFrom (n + 1) xs

/-- The possible payloads returned by `rankApplicantsForScholarship`. -/
inductive RankVal where
  | js : List Json → RankVal
  | fb : List RankResult → RankVal

/-- `rankApplicantsForScholarship` (lines 244–335).  Empty input returns `[]`
before any external call; the inner `try` of lines 314–320 protects only the
parse (its `catch` returns the fallback directly, line 322); the sort,
normalization and any comparator exceptions are protected by the outer
`try`/`catch` (lines 310, 332–334). -/
def rankApplicantsForScholarship (apps : List Application) (sch : Scholarship)
    (gpt : Except Unit String) : JsM RankVal :=
  if apps.length = 0 then .ok (.js [])
  else
    tryCatchJs
      (match liftGpt gpt with
       | .error e => .error e
       | .ok body =>
         match parseGptArray body with
         | .error _ => .ok (.fb (performBasicRanking apps sch))
         | .ok j =>
           match jsToArray j with
           | .error e => .error e
           | .ok xs =>
             match sortJsM xs with
             | .error e => .error e
             | .ok sorted => .ok (.js (assignRanksJsonFrom 0 sorted)))
      (fun _ => .ok (.fb (performBasicRanking apps sch)))

/-! ## Order properties of the cache-key string sort -/

lemma lexLe_cons (a b : Char) (as bs : List Char) :
    lexLe (a :: as) (b :: bs) =
      if a < b then true else if b < a then false else lexLe as bs := rfl

lemma lexLe_total : ∀ as bs : List Char, lexLe as bs = true ∨ lexLe bs as = true
  | [], _ => Or.inl rfl
  | _ :: _, [] => Or.inr rfl
  | a :: as, b :: bs => by
    rcases lt_trichotomy a b with h | h | h
    · left
      rw [lexLe_cons, if_pos h]
    · subst h
      rcases lexLe_total as bs with ih | ih
      · left
        rw [lexLe_cons, if_neg (lt_irrefl a), if_neg (lt_irrefl a)]
        exact ih
      · right
        rw [lexLe_cons, if_neg (lt_irrefl a), if_neg (lt_irrefl a)]
        exact ih
    · right
      rw [lexLe_cons, if_pos h]

lemma lexLe_trans : ∀ as bs cs : List Char,
    lexLe as bs = true → lexLe bs cs = true → lexLe as cs = true
  | [], _, _ => by intro _ _; rfl
  | a :: as, [], _ => by intro h _; simp [lexLe] at h
  | a :: as, b :: bs, [] => by intro _ h; simp [lexLe] at h
  | a :: as, b :: bs, c :: cs => by
    intro h1 h2
    rw [lexLe_cons] at h1 h2 ⊢
    rcases lt_trichotomy a b with hab | hab | hab
    · rcases lt_trichotomy b c with hbc | hbc | hbc
      · rw [if_pos (lt_trans hab hbc)]
      · subst hbc
        rw [if_pos hab]
      · rw [if_neg (asymm hbc), if_pos hbc] at h2
        exact absurd h2 (by decide)
    · subst hab
      rcases lt_trichotomy a c with hac | hac | hac
      · rw [if_pos hac]
      · subst hac
        rw [if_neg (lt_irrefl a), if_neg (lt_irrefl a)] at h1 h2 ⊢
        exact lexLe_trans as bs cs h1 h2
      · rw [if_neg (asymm hac), if_pos hac] at h2
        exact absurd h2 (by decide)
    · rw [if_neg (asymm hab), if_pos hab] at h1
      exact absurd h1 (by decide)

lemma lexLe_antisymm : ∀ as bs : List Char,
    lexLe as bs = true → lexLe bs as = true → as = bs
  | [], [] => by intro _ _; rfl
  | [], b :: bs => by intro _ h; simp [lexLe] at h
  | a :: as, [] => by intro h _; simp [lexLe] at h
  | a :: as, b :: bs => by
    intro h1 h2
    rw [lexLe_cons] at h1 h2
    rcases lt_trichotomy a b with hab | hab | hab
    · rw [if_neg (asymm hab), if_pos hab] at h2
      exact absurd h2 (by decide)
    · subst hab
      rw [if_neg (lt_irrefl a), if_neg (lt_irrefl a)] at h1 h2
      rw [lexLe_antisymm as bs h1 h2]
    · rw [if_neg (asymm hab), if_pos hab] at h1
      exact absurd h1 (by decide)

lemma stringDataEq {a b : String} (h : a.data = b.data) : a = b := by
  cases a
  cases b
  exact congrArg String.mk h

instance : IsTotal String StrLe :=
  ⟨fun a b => lexLe_total a.data b.data⟩

instance : IsTrans String StrLe :=
  ⟨fun a b c h1 h2 => lexLe_trans a.data b.data c.data h1 h2⟩

instance : IsAntisymm String StrLe :=
  ⟨fun a b h1 h2 => stringDataEq (lexLe_antisymm a.data b.data h1 h2)⟩

/-- The sorted id list, and hence the cache key, is invariant under
permutation of the input ids. -/
lemma insertionSort_perm_invariant {l1 l2 : List String} (h : l1.Perm l2) :
    List.insertionSort StrLe l1 = List.insertionSort StrLe l2 :=
  List.eq_of_perm_of_sorted
    (((List.perm_insertionSort StrLe l1).trans h).trans
      (List.perm_insertionSort StrLe l2).symm)
    (List.sorted_insertionSort StrLe l1)
    (List.sorted_insertionSort StrLe l2)

lemma generateCacheKey_perm (sid : String) {ids1 ids2 : List String} (h : ids1.Perm ids2) :
    generateCacheKey sid ids1 = generateCacheKey sid ids2 := by
  unfold generateCacheKey
  rw [insertionSort_perm_invariant h]

/-! ## Stability of the modelled `Array.prototype.sort` -/

section StableSort

variable {A : Type} (r : A → A → Prop) [DecidableRel r]

lemma filter_orderedInsert_pos (p : A → Bool) (x : A) (hx : p x = true)
    (hskip : ∀ y, ¬ r x y → p y = false) :
    ∀ l : List A, (List.orderedInsert r x l).filter p = x :: l.filter p
  | [] => by simp [List.orderedInsert, hx]
  | y :: ys => by
    by_cases h : r x y
    · simp [List.orderedInsert, h, hx]
    · have hy := hskip y h
      simp [List.orderedInsert, h, hy, filter_orderedInsert_pos p x hx hskip ys]

lemma filter_orderedInsert_neg (p : A → Bool) (x : A) (hx : p x = false) :
    ∀ l : List A, (List.orderedInsert r x l).filter p = l.filter p
  | [] => by simp [List.orderedInsert, hx]
  | y :: ys => by
    by_cases h : r x y
    · simp [List.orderedInsert, h, hx]
    · simp [List.orderedInsert, h, List.filter_cons, filter_orderedInsert_neg p x hx ys]

/-- A stable sort does not reorder the elements selected by a filter that is
downward-closed for the "insert before" test: filtering the sorted list gives
the filtered input back unchanged. -/
lemma filter_insertionSort (p : A → Bool)
    (hskip : ∀ x y, p x = true → ¬ r x y → p y = false) :
    ∀ l : List A, (List.insertionSort r l).filter p = l.filter p
  | [] => rfl
  | x :: xs => by
    show (List.orderedInsert r x (List.insertionSort r xs)).filter p = _
    cases hx : p x
    · rw [filter_orderedInsert_neg r p x hx, filter_insertionSort p hskip xs]
      simp [hx]
    · rw [filter_orderedInsert_pos r p x hx (fun y hr => hskip x y hx hr),
        filter_insertionSort p hskip xs]
      simp [hx]

end StableSort

/-! ## Rank assignment lemmas -/

lemma assignRanksFrom_length : ∀ (n : Nat) (l : List RankResult),
    (assignRanksFrom n l).length = l.length
  | _, [] => rfl
  | n, _ :: rs => by simp [assignRanksFrom, assignRanksFrom_length (n + 1) rs]

/-- The ranks attached by the final `forEach` are exactly `n+1, n+2, ...`. -/
lemma assignRanksFrom_map_rank : ∀ (n : Nat) (l : List RankResult),
    (assignRanksFrom n l).map (fun x => x.rank) =
      (List.range' (n + 1) l.length).map Int.ofNat
  | _, [] => rfl
  | n, r :: rs => by
    show ((n : Int) + 1) :: (assignRanksFrom (n + 1) rs).map (fun x => x.rank) = _
    rw [List.length_cons, List.range'_succ, List.map_cons,
      assignRanksFrom_map_rank (n + 1) rs]
    congr 1

lemma assignRanksFrom_map_rankScore : ∀ (n : Nat) (l : List RankResult),
    (assignRanksFrom n l).map (fun x => x.rankScore) = l.map (fun x => x.rankScore)
  | _, [] => rfl
  | n, r :: rs => by
    simp [assignRanksFrom, assignRanksFrom_map_rankScore (n + 1) rs]

/-- Forgetting the `rank` field (it is overwritten by the normalization). -/
def clearRank (x : RankResult) : RankResult := { x with rank := 0 }

lemma assignRanksFrom_map_clearRank : ∀ (n : Nat) (l : List RankResult),
    (assignRanksFrom n l).map clearRank = l.map clearRank
  | _, [] => rfl
  | n, r :: rs => by
    show clearRank { r with rank := (n : Int) + 1 } :: (assignRanksFrom (n + 1) rs).map clearRank = _
    rw [assignRanksFrom_map_clearRank (n + 1) rs]
    rfl

/-! ## Cache lemmas -/

lemma find?_mapSet : (c : Cache) → ∀ k e,
    (mapSet c k e).find? (fun p => p.1 = k) = some (k, e)
  | [], k, e => by simp [mapSet]
  | q :: c, k, e => by
    by_cases hq : q.1 = k
    · have hany : (q :: c).any (fun p => p.1 = k) = true := by
        simp [List.any_cons, hq]
      simp only [mapSet, hany, if_pos, List.map_cons, if_pos hq]
      simp
    · by_cases hany : c.any (fun p => p.1 = k) = true
      · have hany2 : (q :: c).any (fun p => p.1 = k) = true := by
          simp [List.any_cons, hany]
        have ih := find?_mapSet c k e
        simp only [mapSet, hany, if_pos] at ih
        simp only [mapSet, hany2, if_pos, List.map_cons, if_neg hq]
        rw [List.find?_cons_of_neg _ (by simpa using hq)]
        exact ih
      · have hany2 : ¬ (q :: c).any (fun p => p.1 = k) = true := by
          simp only [List.any_cons, Bool.or_eq_true, decide_eq_true_eq]
          push_neg
          exact ⟨hq, by simpa using hany⟩
        have ih := find?_mapSet c k e
        simp only [mapSet, hany, if_neg, Bool.not_eq_true] at ih
        simp only [mapSet, hany2, if_neg, Bool.not_eq_true, List.cons_append]
        rw [List.find?_cons_of_neg _ (by simpa using hq)]
        exact ih

lemma mem_key_mapSet {c : Cache} {k : String} {e : CacheEntry} :
    ∀ p ∈ mapSet c k e, p.1 = k → p = (k, e) := by
  intro p hp hk
  unfold mapSet at hp
  by_cases hany : c.any (fun q => q.1 = k) = true
  · rw [if_pos hany] at hp
    rcases List.mem_map.mp hp with ⟨q, _, hq⟩
    by_cases h : q.1 = k
    · rw [if_pos h] at hq
      exact hq.symm
    · rw [if_neg h] at hq
      exact absurd (hq ▸ hk) h
  · rw [if_neg hany] at hp
    rcases List.mem_append.mp hp with h | h
    · exact absurd (List.any_eq_true.mpr ⟨p, h, by simp [hk]⟩) hany
    · simpa using h

lemma find?_eq_of_all_key {k : String} {e : CacheEntry} :
    ∀ l : Cache, (∀ p ∈ l, p.1 = k → p = (k, e)) → (∃ p ∈ l, p.1 = k) →
      l.find? (fun p => p.1 = k) = some (k, e)
  | [], _, hex => by simp at hex
  | q :: l, hall, hex => by
    by_cases hq : q.1 = k
    · rw [List.find?_cons_of_pos _ (by simpa using hq)]
      rw [hall q (List.mem_cons_self q l) hq]
    · rw [List.find?_cons_of_neg _ (by simpa using hq)]
      apply find?_eq_of_all_key l
      · intro p hp
        exact hall p (List.mem_cons_of_mem q hp)
      · rcases hex with ⟨p, hp, hpk⟩
        rcases List.mem_cons.mp hp with h | h
        · exact absurd (h ▸ hpk) hq
        · exact ⟨p, h, hpk⟩

/-- After `setCachedRecommendation`, the key maps to the new entry: the
overwrite wins and the capacity sweep only removes expired entries, never the
entry just written (its age is `0`). -/
lemma mapGet_setCached (c : Cache) (k : String) (v : MatchesVal) (now : Nat) :
    mapGet (setCachedRecommendation c k v now) k = some ⟨v, now⟩ := by
  unfold setCachedRecommendation mapGet
  set c1 := mapSet c k ⟨v, now⟩ with hc1
  have hfind : c1.find? (fun p => p.1 = k) = some (k, ⟨v, now⟩) := find?_mapSet c k ⟨v, now⟩
  by_cases hlen : c1.length > 100
  · rw [if_pos hlen]
    have hall : ∀ p ∈ sweepExpired c1 now, p.1 = k → p = (k, ⟨v, now⟩) := by
      intro p hp
      exact mem_key_mapSet p (List.mem_of_mem_filter hp)
    have hmem : (k, (⟨v, now⟩ : CacheEntry)) ∈ sweepExpired c1 now := by
      apply List.mem_filter.mpr
      refine ⟨List.mem_of_find?_eq_some hfind, ?_⟩
      simp [CACHE_TTL]
    rw [find?_eq_of_all_key (sweepExpired c1 now) hall ⟨_, hmem, rfl⟩]
  · rw [if_neg hlen, hfind]

/-- A `get` within the TTL window after a `set` of the same key is a hit
returning the stored payload. -/
lemma getCached_after_set (c : Cache) (k : String) (v : MatchesVal) (t1 t2 : Nat)
    (h : t2 - t1 < CACHE_TTL) :
    (getCachedRecommendation (setCachedRecommendation c k v t1) t2 k).1 = some v := by
  unfold getCachedRecommendation
  rw [mapGet_setCached c k v t1]
  simp [h]

/-! ## Characterization of the regex match -/

lemma takeToLastClose_none : ∀ l : List Char, ']' ∉ l → takeToLastClose l = none
  | [], _ => rfl
  | c :: cs, h => by
    have hc : ¬ c = ']' := fun hc2 => h (hc2 ▸ List.mem_cons_self c cs)
    simp [takeToLastClose, takeToLastClose_none cs (fun hm => h (List.mem_cons_of_mem c hm)), hc]

lemma takeToLastClose_found : ∀ (mid l3 : List Char), ']' ∉ l3 →
    takeToLastClose (mid ++ ']' :: l3) = some (mid ++ [']'])
  | [], l3, h3 => by
    simp [takeToLastClose, takeToLastClose_none l3 h3]
  | c :: mid, l3, h3 => by
    simp [takeToLastClose, takeToLastClose_found mid l3 h3]

lemma regexScan_no_close : ∀ l : List Char, ']' ∉ l → regexScan l = none
  | [], _ => rfl
  | c :: cs, h => by
    have ih := regexScan_no_close cs (fun hm => h (List.mem_cons_of_mem c hm))
    by_cases hc : c = '['
    · simp [regexScan, hc, takeToLastClose_none cs (fun hm => h (List.mem_cons_of_mem c hm)), ih]
    · simp [regexScan, hc, ih]

/-- When the input decomposes as (no `'['`) ++ `'['` ++ mid ++ `']'` ++
(no `']'`), the regex matches the span from the first `'['` to the last
`']'`. -/
lemma regexScan_found : ∀ (l1 mid l3 : List Char), '[' ∉ l1 → ']' ∉ l3 →
    regexScan (l1 ++ '[' :: (mid ++ ']' :: l3)) = some ('[' :: (mid ++ [']']))
  | [], mid, l3, _, h3 => by
    simp [regexScan, takeToLastClose_found mid l3 h3]
  | c :: l1, mid, l3, h1, h3 => by
    have hc : ¬ c = '[' := fun hc2 => h1 (hc2 ▸ List.mem_cons_self c l1)
    simp [regexScan, hc,
      regexScan_found l1 mid l3 (fun hm => h1 (List.mem_cons_of_mem c hm)) h3]

/-- When no `']'` occurs after the first `'['`, there is no match. -/
lemma regexScan_none : ∀ (l1 l2 : List Char), '[' ∉ l1 → ']' ∉ l2 →
    regexScan (l1 ++ '[' :: l2) = none
  | [], l2, _, h2 => by
    simp [regexScan, takeToLastClose_none l2 h2, regexScan_no_close l2 h2]
  | c :: l1, l2, h1, h2 => by
    have hc : ¬ c = '[' := fun hc2 => h1 (hc2 ▸ List.mem_cons_self c l1)
    simp [regexScan, hc,
      regexScan_none l1 l2 (fun hm => h1 (List.mem_cons_of_mem c hm)) h2]

lemma regexScan_no_open : ∀ l : List Char, '[' ∉ l → regexScan l = none
  | [], _ => rfl
  | c :: cs, h => by
    have hc : ¬ c = '[' := fun hc2 => h (hc2 ▸ List.mem_cons_self c cs)
    simp [regexScan, hc, regexScan_no_open cs (fun hm => h (List.mem_cons_of_mem c hm))]

/-! ## Model-path normalization lemmas -/

/-- Whether a JSON value is an object. -/
def isObjB : Json → Bool
  | .obj _ => true
  | _ => false

lemma rankComparator_ok_of_obj {x y : Json} (hx : isObjB x = true) (hy : isObjB y = true) :
    ∃ c, rankComparator x y = .ok c := by
  cases x with
  | obj fx =>
    cases y with
    | obj fy => exact ⟨_, rfl⟩
    | null => simp [isObjB] at hy
    | bool b => simp [isObjB] at hy
    | num q => simp [isObjB] at hy
    | str s => simp [isObjB] at hy
    | arr l => simp [isObjB] at hy
  | null => simp [isObjB] at hx
  | bool b => simp [isObjB] at hx
  | num q => simp [isObjB] at hx
  | str s => simp [isObjB] at hx
  | arr l => simp [isObjB] at hx

lemma insertJs_ok_of_obj {x : Json} (hx : isObjB x = true) :
    ∀ l : List Json, (∀ y ∈ l, isObjB y = true) →
      ∃ r, insertJs x l = .ok r ∧ r.length = l.length + 1 ∧ ∀ z ∈ r, isObjB z = true
  | [], _ => ⟨[x], rfl, rfl, by simpa using hx⟩
  | y :: ys, hall => by
    have hy := hall y (List.mem_cons_self y ys)
    rcases rankComparator_ok_of_obj hx hy with ⟨c, hc⟩
    rcases insertJs_ok_of_obj hx ys (fun z hz => hall z (List.mem_cons_of_mem y hz)) with
      ⟨r, hr, hlen, hobj⟩
    by_cases hpos : 0 < c
    · refine ⟨y :: r, ?_, by simp [hlen], ?_⟩
      · simp [insertJs, hc, hpos, hr]
      · intro z hz
        rcases List.mem_cons.mp hz with h | h
        · exact h ▸ hy
        · exact hobj z h
    · refine ⟨x :: y :: ys, ?_, by simp, ?_⟩
      · simp [insertJs, hc, hpos]
      · intro z hz
        rcases List.mem_cons.mp hz with h | h
        · exact h ▸ hx
        · exact hall z h

lemma sortJsM_ok_of_obj :
    ∀ l : List Json, (∀ y ∈ l, isObjB y = true) →
      ∃ r, sortJsM l = .ok r ∧ r.length = l.length ∧ ∀ z ∈ r, isObjB z = true
  | [], _ => ⟨[], rfl, rfl, by simp⟩
  | x :: xs, hall => by
    rcases sortJsM_ok_of_obj xs (fun z hz => hall z (List.mem_cons_of_mem x hz)) with
      ⟨s, hs, hslen, hsobj⟩
    rcases insertJs_ok_of_obj (hall x (List.mem_cons_self x xs)) s hsobj with
      ⟨r, hr, hrlen, hrobj⟩
    exact ⟨r, by simp [sortJsM, hs, hr], by simp [hrlen, hslen], hrobj⟩

lemma lookupField_setField_self (k : String) (v : Json) :
    ∀ fs, lookupField k (setField k v fs) = some v
  | [] => by simp [setField, lookupField]
  | (k2, v2) :: fs => by
    by_cases h : k2 = k
    · simp [setField, h, lookupField]
    · simp [setField, h, lookupField, lookupField_setField_self k v fs]

/-- The `rank` property of a JSON value, as the normalization's observer. -/
def getRankField : Json → Option Json
  | .obj fs => lookupField "rank" fs
  | _ => none

/-- The normalization `forEach` attaches ranks `n+1, n+2, ...` to object
elements. -/
lemma assignRanksJsonFrom_ranks : ∀ (n : Nat) (l : List Json),
    (∀ x ∈ l, isObjB x = true) →
    (assignRanksJsonFrom n l).map getRankField =
      (List.range' (n + 1) l.length).map (fun (i : Nat) => some (Json.num (i : Rat)))
  | _, [], _ => rfl
  | n, x :: xs, hall => by
    have hx := hall x (List.mem_cons_self x xs)
    have ih := assignRanksJsonFrom_ranks (n + 1) xs (fun z hz => hall z (List.mem_cons_of_mem x hz))
    show getRankField (setRankJson x n) :: (assignRanksJsonFrom (n + 1) xs).map getRankField = _
    rw [List.length_cons, List.range'_succ, List.map_cons, ih]
    congr 1
    cases x with
    | obj fs => simp [setRankJson, getRankField, lookupField_setField_self]
    | null => simp [isObjB] at hx
    | bool b => simp [isObjB] at hx
    | num q => simp [isObjB] at hx
    | str s => simp [isObjB] at hx
    | arr l2 => simp [isObjB] at hx

/-! ## Numeric bound lemmas -/

lemma clampInt_lower (lo hi v : Int) : lo ≤ clampInt lo hi v :=
  le_max_left lo (min hi v)

lemma clampInt_upper (lo hi v : Int) (h : lo ≤ hi) : clampInt lo hi v ≤ hi :=
  max_le h (min_le_left hi v)

lemma clampInt_lower_of (lo hi v z : Int) (hz : z ≤ v) (hhi : z ≤ hi) : z ≤ clampInt lo hi v :=
  le_trans (le_min hhi hz) (le_max_right lo (min hi v))

lemma le_jsRound {z : Int} {q : Rat} (h : (z : Rat) ≤ q) : z ≤ jsRound q := by
  apply Rat.le_floor.mpr
  have hhalf : (0 : Rat) ≤ mkRat 1 2 := by
    rw [Rat.mkRat_eq_div]
    norm_num
  linarith

/-- Membership decomposition for the rank-assignment pass. -/
lemma mem_assignRanksFrom : ∀ (n : Nat) (l : List RankResult) (r : RankResult),
    r ∈ assignRanksFrom n l → ∃ q ∈ l, ∃ m : Int, r = { q with rank := m }
  | n, [], r => by intro h; simp [assignRanksFrom] at h
  | n, x :: xs, r => by
    intro h
    rcases List.mem_cons.mp h with h1 | h1
    · exact ⟨x, List.mem_cons_self x xs, (n : Int) + 1, h1⟩
    · rcases mem_assignRanksFrom (n + 1) xs r h1 with ⟨q, hq, m, hm⟩
      exact ⟨q, List.mem_cons_of_mem x hq, m, hm⟩

/-! ## Concrete fixtures used by counterexamples and witnesses -/

/-- A concrete student: GPA 2.0, prefers Merit scholarships. -/
def saX : StudentAssessment :=
  { fullName := "Test Student", course := some "Computer Science",
    yearLevel := some "1st Year", gpa := some 2, incomeRange := "Above ₱50,000",
    skills := none, scholarshipType := "Merit", involvement := none }

/-- A concrete scholarship: minGPA 3.5, no course or year-level restriction,
Need-based. -/
def schX : Scholarship :=
  { id := "a", scholarshipName := "STEM Grant", organizationName := "Org",
    scholarshipType := "Need-based", minGPA := some (mkRat 7 2),
    eligibleCourses := none, eligibleYearLevels := none, incomeLimit := none,
    requiredSkills := none, slotsAvailable := 5, slotsFilled := none }

/-- A concrete applicant in the lowest income band with GPA 3.0. -/
def appX1 : Application :=
  { id := "app1", studentName := "Applicant One", course := none, yearLevel := none,
    gpa := some 3, incomeRange := "Below ₱10,000", skills := none,
    applicationLetter := none, essayReason := none, involvement := none }

/-- A concrete applicant in the highest income band with GPA 2.0. -/
def appX2 : Application :=
  { id := "app2", studentName := "Applicant Two", course := none, yearLevel := none,
    gpa := some 2, incomeRange := "Above ₱50,000", skills := none,
    applicationLetter := none, essayReason := none, involvement := none }

/-! ## Claims -/

/-- The body of `matchStudentToScholarships` after the cache check always
returns `.ok`: every throwing operation is inside a `try` whose `catch`
returns the fallback. -/
lemma matchAfterCacheCheck_ok (sa : StudentAssessment) (schs : List Scholarship)
    (sid : Option String) (gpt : Except Unit String) (cache : Cache) (now : Nat) :
    ∃ v c2, matchAfterCacheCheck sa schs sid gpt cache now = .ok (v, c2) := by
  unfold matchAfterCacheCheck tryCatchJs liftGpt
  cases gpt with
  | error e => cases sid <;> exact ⟨_, _, rfl⟩
  | ok body =>
    cases h : parseAndTag body with
    | error e => cases sid <;> simp [h]
    | ok ms => cases sid <;> simp [h]

/-- C1: the claim says `matchStudentToScholarships` returns exactly one
MatchResult per input scholarship on every path, treating a model response
that omits scholarships as a contract violation.  The code does not validate
the model's array: here the model answers with the well-formed but empty JSON
array `[]` for a one-scholarship input, and the function returns the empty
array tagged `source: "ai"` — zero results for one scholarship, with no
fallback — contradicting the stated contract. -/
theorem c1_model_path_accepts_incomplete_response :
    matchStudentToScholarships saX [schX] none (.ok "[]") [] 0 =
      .ok (.ai [], []) ∧ ([] : List Json).length ≠ [schX].length :=
  ⟨rfl, by decide⟩

/-- C2: both entry points are total and return an array for every model
outcome: (1) `matchStudentToScholarships` never throws; (2)
`rankApplicantsForScholarship` never throws; (3) an API-call failure (missing
key, network, non-2xx) yields exactly the deterministic fallback's output for
matching; (4) the same for ranking (or the empty array for empty input). -/
theorem c2_entry_points_never_throw :
    (∀ sa schs sid gpt cache now, ∃ v c2,
        matchStudentToScholarships sa schs sid gpt cache now = .ok (v, c2)) ∧
    (∀ apps sch gpt, ∃ v, rankApplicantsForScholarship apps sch gpt = .ok v) ∧
    (∀ sa schs e cache now,
        matchStudentToScholarships sa schs none (.error e) cache now =
          .ok (.fb (performBasicMatching sa schs), cache)) ∧
    (∀ apps sch e,
        rankApplicantsForScholarship apps sch (.error e) =
          .ok (if apps.length = 0 then .js [] else .fb (performBasicRanking apps sch))) ∧
    (∀ sa schs body err cache now, parseAndTag body = .error err →
        matchStudentToScholarships sa schs none (.ok body) cache now =
          .ok (.fb (performBasicMatching sa schs), cache)) ∧
    (∀ apps sch body err, parseGptArray body = .error err → apps.length ≠ 0 →
        rankApplicantsForScholarship apps sch (.ok body) =
          .ok (.fb (performBasicRanking apps sch))) ∧
    (∀ apps sch body j err, parseGptArray body = .ok j → jsToArray j = .error err →
        apps.length ≠ 0 →
        rankApplicantsForScholarship apps sch (.ok body) =
          .ok (.fb (performBasicRanking apps sch))) := by
  refine ⟨?_, ?_, ?_, ?_, ?_, ?_, ?_⟩
  · intro sa schs sid gpt cache now
    rcases sid with _ | studentId
    · exact matchAfterCacheCheck_ok sa schs none gpt cache now
    · rcases hg : getCachedRecommendation cache now
        (generateCacheKey studentId (schs.map (fun s => s.id))) with ⟨hit, c2⟩
      simp only [matchStudentToScholarships]
      rw [hg]
      cases hit
      · exact matchAfterCacheCheck_ok sa schs (some studentId) gpt c2 now
      · exact ⟨_, _, rfl⟩
  · intro apps sch gpt
    by_cases hlen : apps.length = 0
    · refine ⟨.js [], ?_⟩
      unfold rankApplicantsForScholarship
      rw [if_pos hlen]
    · unfold rankApplicantsForScholarship tryCatchJs liftGpt
      rw [if_neg hlen]
      cases gpt with
      | error e => exact ⟨_, rfl⟩
      | ok body =>
        cases hp : parseGptArray body with
        | error e => simp [hp]
        | ok j =>
          cases ha : jsToArray j with
          | error e => simp [hp, ha]
          | ok xs =>
            cases hs : sortJsM xs with
            | error e => simp [hp, ha, hs]
            | ok sorted => simp [hp, ha, hs]
  · intro sa schs e cache now
    rfl
  · intro apps sch e
    unfold rankApplicantsForScholarship tryCatchJs liftGpt
    by_cases hlen : apps.length = 0
    · simp only [if_pos hlen]
    · simp only [if_neg hlen]
  · intro sa schs body err cache now hparse
    show matchAfterCacheCheck sa schs none (.ok body) cache now = _
    simp only [matchAfterCacheCheck, tryCatchJs, liftGpt, hparse]
  · intro apps sch body err hparse hlen
    unfold rankApplicantsForScholarship tryCatchJs liftGpt
    rw [if_neg hlen]
    simp only [hparse]
  · intro apps sch body j err hp hj hlen
    unfold rankApplicantsForScholarship tryCatchJs liftGpt
    rw [if_neg hlen]
    simp only [hp, hj]

/-- C2 witness: an unparseable response body (no JSON anywhere in `"x"`) makes
the matching entry point return exactly the fallback output. -/
theorem c2_entry_points_witness :
    parseAndTag "x" = .error .syntaxError ∧
    matchStudentToScholarships saX [schX] none (.ok "x") [] 0 =
      .ok (.fb (performBasicMatching saX [schX]), []) :=
  ⟨rfl, c2_entry_points_never_throw.2.2.2.2.1 saX [schX] "x" .syntaxError [] 0 rfl⟩

/-- C3 counterexample: the claim says every failure with a `studentId` caches
the fallback result before returning.  Here the API call itself throws
(`.error ()`, covering the missing-credential / network / non-2xx cases);
`studentId` is given and the cache starts empty, yet the function returns the
fallback with the cache still empty — nothing was written, so a repeated call
would contact the model again. -/
theorem c3_counterexample :
    matchStudentToScholarships saX [schX] (some "s1") (.error ()) [] 0 =
      .ok (.fb (performBasicMatching saX [schX]), []) ∧
    mapGet ([] : Cache) (generateCacheKey "s1" ["a"]) = none :=
  ⟨rfl, rfl⟩

/-- C3 amended: with a `studentId` and a cache miss, only a PARSE failure
(response received but not parseable/taggable) writes the fallback result to
the cache before returning; when the API call itself throws (missing key,
network error, non-2xx) the fallback is returned with the cache unchanged. -/
theorem c3_amended (sa : StudentAssessment) (schs : List Scholarship)
    (studentId : String) (cache : Cache) (now : Nat)
    (hmiss : getCachedRecommendation cache now
        (generateCacheKey studentId (schs.map (fun s => s.id))) = (none, cache)) :
    (∀ e, matchStudentToScholarships sa schs (some studentId) (.error e) cache now =
        .ok (.fb (performBasicMatching sa schs), cache)) ∧
    (∀ body err, parseAndTag body = .error err →
        matchStudentToScholarships sa schs (some studentId) (.ok body) cache now =
          .ok (.fb (performBasicMatching sa schs),
            setCachedRecommendation cache
              (generateCacheKey studentId (schs.map (fun s => s.id)))
              (.fb (performBasicMatching sa schs)) now)) := by
  constructor
  · intro e
    simp only [matchStudentToScholarships]
    rw [hmiss]
    rfl
  · intro body err hparse
    simp only [matchStudentToScholarships]
    rw [hmiss]
    show matchAfterCacheCheck sa schs (some studentId) (.ok body) cache now = _
    simp only [matchAfterCacheCheck, tryCatchJs, liftGpt, hparse]

/-- C3 witness: the amended theorem applied to the concrete empty-cache run. -/
theorem c3_amended_witness :
    (getCachedRecommendation [] 0
        (generateCacheKey "s1" ([schX].map (fun s => s.id))) = (none, [])) ∧
    matchStudentToScholarships saX [schX] (some "s1") (.error ()) [] 0 =
      .ok (.fb (performBasicMatching saX [schX]), []) :=
  ⟨rfl, (c3_amended saX [schX] "s1" [] 0 rfl).1 ()⟩

/-- C4 counterexample: the claim says the parser attempts a strict parse of the
full body FIRST and only on failure extracts the first well-formed
bracket-matched array.  For the body `"[1] [2]"` that policy yields the array
`[1]` (strict parse fails, first well-formed array substring is `[1]`), but the
code regex-extracts first and greedily (first `'['` to last `']'`, i.e.
`"[1] [2]"` itself), whose parse fails, so the code rejects the response
entirely. -/
theorem c4_counterexample :
    parseGptArray "[1] [2]" = .error .syntaxError ∧
    jsonParse "[1] [2]" = none ∧
    specPolicyParse "[1] [2]" = some (.arr [.num 1]) :=
  ⟨rfl, rfl, rfl⟩

/-- C4 amended: the response parser FIRST tries the regex extraction
`/\[[\s\S]*\]/` — the span from the first `'['` to the last `']'` of the body,
greedy and not bracket-matched — and `JSON.parse`s the extracted span; only
when the body contains no such span does it strict-parse the full body; and if
the attempted parse fails the caller falls back entirely, never accepting a
partial result. -/
theorem c4_amended :
    (∀ l1 mid l3 : List Char, '[' ∉ l1 → ']' ∉ l3 →
        parseGptArray (String.mk (l1 ++ '[' :: (mid ++ ']' :: l3))) =
          jsonParseJs (String.mk ('[' :: (mid ++ [']'])))) ∧
    (∀ l1 l2 : List Char, '[' ∉ l1 → ']' ∉ l2 →
        parseGptArray (String.mk (l1 ++ '[' :: l2)) =
          jsonParseJs (String.mk (l1 ++ '[' :: l2))) ∧
    (∀ l : List Char, '[' ∉ l →
        parseGptArray (String.mk l) = jsonParseJs (String.mk l)) ∧
    (∀ apps sch body err, parseGptArray body = .error err → apps.length ≠ 0 →
        rankApplicantsForScholarship apps sch (.ok body) =
          .ok (.fb (performBasicRanking apps sch))) := by
  refine ⟨?_, ?_, ?_, ?_⟩
  · intro l1 mid l3 h1 h3
    unfold parseGptArray
    rw [show (String.mk (l1 ++ '[' :: (mid ++ ']' :: l3))).data =
        l1 ++ '[' :: (mid ++ ']' :: l3) from rfl]
    rw [regexScan_found l1 mid l3 h1 h3]
  · intro l1 l2 h1 h2
    unfold parseGptArray
    rw [show (String.mk (l1 ++ '[' :: l2)).data = l1 ++ '[' :: l2 from rfl]
    rw [regexScan_none l1 l2 h1 h2]
  · intro l h1
    unfold parseGptArray
    rw [show (String.mk l).data = l from rfl]
    rw [regexScan_no_open l h1]
  · intro apps sch body err hparse hlen
    unfold rankApplicantsForScholarship tryCatchJs liftGpt
    rw [if_neg hlen]
    simp only [hparse]

/-- C4 witness: the amended characterization applied at the concrete body
`"x[1]y"` (first `'['` after an `'x'`, last `']'` before a `'y'`). -/
theorem c4_amended_witness :
    ('[' ∉ ['x']) ∧ (']' ∉ ['y']) ∧
    parseGptArray (String.mk (['x'] ++ '[' :: (['1'] ++ ']' :: ['y']))) =
      jsonParseJs (String.mk ('[' :: (['1'] ++ [']']))) :=
  ⟨by decide, by decide, c4_amended.1 ['x'] ['1'] ['y'] (by decide) (by decide)⟩

/-- C5 counterexample: the claim says every ranking run over N applications
returns rank positions exactly `{1, ..., N}` on the normalized model path as
well.  Here N = 2 applications are ranked but the model's parsed response
holds a single object; the code normalizes it without checking the count and
returns one element with rank 1 — the positions are `{1}`, not `{1, 2}`. -/
theorem c5_counterexample :
    rankApplicantsForScholarship [appX1, appX2] schX
        (.ok "[\x7b\"rankScore\":90\x7d]") =
      .ok (.js [Json.obj [("rankScore", Json.num 90), ("rank", Json.num 1)]]) ∧
    [appX1, appX2].length = 2 :=
  ⟨rfl, rfl⟩

/-- C5 amended: rank positions are exactly `{1, ..., M}` where `M` is the
length of the returned array.  On the fallback path `M = N` (one RankResult
per application) and the ranks are assigned 1-based dense after a stable
descending sort by rankScore, ties keeping their pre-sort order; on the model
path `M` is the parsed response array's length — the code does not check it
equals N — and the ranks `{1, ..., M}` are attached provided the parsed
elements are JSON objects. -/
theorem c5_amended :
    (∀ apps sch, (performBasicRanking apps sch).map (fun x => x.rank) =
        (List.range' 1 apps.length).map Int.ofNat) ∧
    (∀ apps sch, List.Pairwise (fun a b : Int => b ≤ a)
        ((performBasicRanking apps sch).map (fun x => x.rankScore))) ∧
    (∀ apps sch (s : Int),
        ((performBasicRanking apps sch).map clearRank).filter (fun x => x.rankScore == s) =
          ((apps.map (scoreApplicantFB sch)).map clearRank).filter (fun x => x.rankScore == s)) ∧
    (∀ xs : List Json, (∀ x ∈ xs, isObjB x = true) →
        ∃ ys, sortJsM xs = .ok ys ∧
          (assignRanksJsonFrom 0 ys).map getRankField =
            (List.range' 1 xs.length).map (fun (i : Nat) => some (Json.num (i : Rat)))) := by
  refine ⟨?_, ?_, ?_, ?_⟩
  · intro apps sch
    unfold performBasicRanking
    rw [assignRanksFrom_map_rank 0 (List.insertionSort RankLeR (apps.map (scoreApplicantFB sch)))]
    rw [List.length_insertionSort, List.length_map]
  · intro apps sch
    unfold performBasicRanking
    rw [assignRanksFrom_map_rankScore 0
      (List.insertionSort RankLeR (apps.map (scoreApplicantFB sch)))]
    exact List.pairwise_map.mpr
      (List.sorted_insertionSort RankLeR (apps.map (scoreApplicantFB sch)))
  · intro apps sch s
    unfold performBasicRanking
    have hcomp : ∀ l : List RankResult,
        (l.map clearRank).filter (fun x => x.rankScore == s) =
          (l.filter (fun x => x.rankScore == s)).map clearRank := by
      intro l
      rw [List.filter_map]
      rfl
    rw [assignRanksFrom_map_clearRank 0
      (List.insertionSort RankLeR (apps.map (scoreApplicantFB sch)))]
    rw [hcomp, hcomp]
    congr 1
    apply filter_insertionSort RankLeR (fun x => x.rankScore == s)
    intro x y hx hr
    have hxs : x.rankScore = s := by simpa using hx
    have hgt : x.rankScore < y.rankScore := lt_of_not_ge hr
    have : ¬ y.rankScore = s := by omega
    simpa using this
  · intro xs hall
    rcases sortJsM_ok_of_obj xs hall with ⟨ys, hs, hlen, hobj⟩
    refine ⟨ys, hs, ?_⟩
    rw [assignRanksJsonFrom_ranks 0 ys hobj, hlen]

/-- C5 witness: the model-path conjunct applied to a singleton object
array. -/
theorem c5_amended_witness :
    (∀ x ∈ [Json.obj []], isObjB x = true) ∧
    (∃ ys, sortJsM [Json.obj []] = .ok ys ∧
      (assignRanksJsonFrom 0 ys).map getRankField =
        (List.range' 1 ([Json.obj []] : List Json).length).map
          (fun (i : Nat) => some (Json.num (i : Rat)))) :=
  ⟨by intro x hx; simp at hx; rw [hx]; rfl,
   c5_amended.2.2.2 [Json.obj []] (by intro x hx; simp at hx; rw [hx]; rfl)⟩

/-- C6 counterexample: the claim predicts a financial-need sub-score of
`(4 - i) * 25`, i.e. `0` for the highest income band (index 4).  The code
computes `(5 - i) * 20` for the breakdown field (line 571): for the
`"Above ₱50,000"` applicant the sub-score is `20`, not `0`. -/
theorem c6_counterexample :
    (scoreApplicantFB schX appX2).scoreBreakdown.financialNeedScore = 20 ∧
    idxOf? appX2.incomeRange incomeRanges = some 4 ∧
    (scoreApplicantFB schX appX2).scoreBreakdown.financialNeedScore ≠ (4 - 4) * 25 :=
  ⟨rfl, rfl, by decide⟩

/-- C6 amended: the financial-need sub-score reported in the breakdown for an
income label at index `i` of the fixed ascending 5-label list is
`(5 - i) * 20` (so index 0 scores 100 and the highest band scores 20, never
0); the contribution added to the rank score is `(5 - i) * 4`; an unknown
label yields the neutral default 50 in the breakdown. -/
theorem c6_amended (app : Application) (sch : Scholarship) :
    (∀ i, idxOf? app.incomeRange incomeRanges = some i →
        (scoreApplicantFB sch app).scoreBreakdown.financialNeedScore = (5 - (i : Int)) * 20) ∧
    (idxOf? app.incomeRange incomeRanges = none →
        (scoreApplicantFB sch app).scoreBreakdown.financialNeedScore = 50) := by
  constructor
  · intro i hi
    simp only [scoreApplicantFB, hi]
  · intro hnone
    simp only [scoreApplicantFB, hnone]

/-- C6 witness: the lowest income band (index 0) scores `(5 - 0) * 20`. -/
theorem c6_amended_witness :
    idxOf? appX1.incomeRange incomeRanges = some 0 ∧
    (scoreApplicantFB schX appX1).scoreBreakdown.financialNeedScore = (5 - (0 : Int)) * 20 :=
  ⟨rfl, (c6_amended appX1 schX).1 0 rfl⟩

/-- C7 counterexample: for GPA 2.0 against minGPA 3.5 with no course
restriction (and no year-level restriction, no type-preference match) the
claim computes `50 - 20 + 10 = 40`; the code additionally adds `+5` for the
empty year-level list (line 496), giving 45 — still in the Consider tier, but
not 40. -/
theorem c7_counterexample :
    (scoreMatchFB saX schX).matchScore = 45 ∧
    (scoreMatchFB saX schX).matchScore ≠ 40 ∧
    (scoreMatchFB saX schX).recommendation = "Consider" :=
  ⟨by decide, by decide, by decide⟩

/-- C7 amended: for a student whose GPA coerces to 2.0 against a scholarship
whose minimum GPA coerces to 3.5, with no course restriction, no year-level
restriction and no type-preference match, the fallback match score is
`50 - 20 + 10 + 5 = 45` (the unrestricted year-level list contributes +5),
which falls in the "Consider" tier; and the ≥ 40 threshold is inclusive — any
fallback MatchResult with score exactly 40 is recommended "Consider". -/
theorem c7_amended :
    (∀ sa sch, numOr0 sa.gpa = 2 → numOr0 sch.minGPA = mkRat 7 2 →
        restrictedList sch.eligibleCourses = false →
        restrictedList sch.eligibleYearLevels = false →
        sa.scholarshipType ≠ sch.scholarshipType →
        (scoreMatchFB sa sch).matchScore = 45 ∧
          (scoreMatchFB sa sch).recommendation = "Consider") ∧
    (∀ sa sch, (scoreMatchFB sa sch).matchScore = 40 →
        (scoreMatchFB sa sch).recommendation = "Consider") := by
  constructor
  · intro sa sch hgpa hmin hcourse hyear htype
    have hrec : (scoreMatchFB sa sch).recommendation =
        recommendationOfScore (scoreMatchFB sa sch).matchScore := rfl
    have hscore : (scoreMatchFB sa sch).matchScore = 45 := by
      simp only [scoreMatchFB, hgpa, hmin, hcourse, hyear, if_neg htype]
      norm_num [clampInt, mkRat, Rat.normalize]
    refine ⟨hscore, ?_⟩
    rw [hrec, hscore]
    rfl
  · intro sa sch h40
    have hrec : (scoreMatchFB sa sch).recommendation =
        recommendationOfScore (scoreMatchFB sa sch).matchScore := rfl
    rw [hrec, h40]
    rfl

/-- C7 witness: the amended scenario at the concrete student/scholarship
pair. -/
theorem c7_amended_witness :
    numOr0 saX.gpa = 2 ∧ numOr0 schX.minGPA = mkRat 7 2 ∧
    restrictedList schX.eligibleCourses = false ∧
    restrictedList schX.eligibleYearLevels = false ∧
    saX.scholarshipType ≠ schX.scholarshipType ∧
    ((scoreMatchFB saX schX).matchScore = 45 ∧
      (scoreMatchFB saX schX).recommendation = "Consider") :=
  ⟨rfl, rfl, rfl, rfl, by decide,
    c7_amended.1 saX schX rfl rfl rfl rfl (by decide)⟩

/-- C8: fallback scores are clamped: every MatchResult of
`performBasicMatching` has matchScore in [0, 100] and every RankResult of
`performBasicRanking` has rankScore in [0, 100]. -/
theorem c8_scores_clamped :
    (∀ sa schs r, r ∈ performBasicMatching sa schs →
        0 ≤ r.matchScore ∧ r.matchScore ≤ 100) ∧
    (∀ apps sch r, r ∈ performBasicRanking apps sch →
        0 ≤ r.rankScore ∧ r.rankScore ≤ 100) := by
  constructor
  · intro sa schs r hr
    unfold performBasicMatching at hr
    rcases List.mem_map.mp ((List.mem_insertionSort MatchLeR).mp hr) with ⟨x, _, hx⟩
    rw [← hx]
    exact ⟨clampInt_lower 0 100 _, clampInt_upper 0 100 _ (by norm_num)⟩
  · intro apps sch r hr
    unfold performBasicRanking at hr
    rcases mem_assignRanksFrom 0 _ r hr with ⟨q, hq, m, hm⟩
    rcases List.mem_map.mp ((List.mem_insertionSort RankLeR).mp hq) with ⟨a, _, ha⟩
    have hscore : r.rankScore = q.rankScore := by rw [hm]
    rw [hscore, ← ha]
    exact ⟨clampInt_lower 0 100 _, clampInt_upper 0 100 _ (by norm_num)⟩

/-- C8 witness: the clamping bounds at a concrete matching run and a concrete
ranking run. -/
theorem c8_witness :
    (scoreMatchFB saX schX ∈ performBasicMatching saX [schX] ∧
      0 ≤ (scoreMatchFB saX schX).matchScore ∧ (scoreMatchFB saX schX).matchScore ≤ 100) ∧
    ({ scoreApplicantFB schX appX1 with rank := ((0 : Nat) : Int) + 1 } ∈
        performBasicRanking [appX1] schX ∧
      0 ≤ ({ scoreApplicantFB schX appX1 with rank := ((0 : Nat) : Int) + 1 } : RankResult).rankScore ∧
      ({ scoreApplicantFB schX appX1 with rank := ((0 : Nat) : Int) + 1 } : RankResult).rankScore ≤ 100) := by
  have hm : scoreMatchFB saX schX ∈ performBasicMatching saX [schX] :=
    List.mem_singleton.mpr rfl
  have hk : ({ scoreApplicantFB schX appX1 with rank := ((0 : Nat) : Int) + 1 } : RankResult) ∈
      performBasicRanking [appX1] schX :=
    List.mem_singleton.mpr rfl
  exact ⟨⟨hm, c8_scores_clamped.1 saX [schX] _ hm⟩, ⟨hk, c8_scores_clamped.2 [appX1] schX _ hk⟩⟩

/-- C9: the cache round-trip is insensitive to scholarship-id order: storing
under the key computed from `ids` and looking up with any permutation of the
ids within the TTL window hits and returns exactly the stored payload,
because the key sorts the ids before joining. -/
theorem c9_cache_roundtrip (studentId : String) (ids ids2 : List String)
    (results : MatchesVal) (cache : Cache) (t1 t2 : Nat)
    (hperm : ids2.Perm ids) (httl : t2 - t1 < CACHE_TTL) :
    (getCachedRecommendation
        (setCachedRecommendation cache (generateCacheKey studentId ids) results t1)
        t2 (generateCacheKey studentId ids2)).1 = some results := by
  rw [generateCacheKey_perm studentId hperm]
  exact getCached_after_set cache _ results t1 t2 httl

/-- C9 witness: `set("s1", ["a","b"], r)` then `get("s1", ["b","a"])` five
milliseconds later hits. -/
theorem c9_cache_roundtrip_witness :
    (["b", "a"] : List String).Perm ["a", "b"] ∧ ((5 : Nat) - 0 < CACHE_TTL) ∧
    (getCachedRecommendation
        (setCachedRecommendation [] (generateCacheKey "s1" ["a", "b"]) (.fb []) 0)
        5 (generateCacheKey "s1" ["b", "a"])).1 = some (.fb []) :=
  ⟨List.Perm.swap "a" "b" [], by decide,
    c9_cache_roundtrip "s1" ["a", "b"] ["b", "a"] (.fb []) [] 0 5
      (List.Perm.swap "a" "b" []) (by decide)⟩

/-- The index returned by `Array.prototype.indexOf` is within the list. -/
lemma idxOf?_lt_length {sv : String} : ∀ {l : List String} {i : Nat},
    idxOf? sv l = some i → i < l.length := by
  intro l
  induction l with
  | nil => intro i h; simp [idxOf?] at h
  | cons x xs ih =>
    intro i h
    simp only [idxOf?] at h
    by_cases hx : x = sv
    · rw [if_pos hx] at h
      injection h with h2
      simp only [List.length_cons]
      omega
    · rw [if_neg hx] at h
      rcases Option.map_eq_some'.mp h with ⟨j, hj, hji⟩
      have := ih hj
      simp only [List.length_cons]
      omega

/-- The fallback rank score is at least 50 whenever the coerced GPA is
nonnegative: the base 50 is only ever increased. -/
lemma scoreApplicantFB_rankScore_ge (sch : Scholarship) (a : Application)
    (h0 : 0 ≤ numOr0 a.gpa) : 50 ≤ (scoreApplicantFB sch a).rankScore := by
  have hscore : (scoreApplicantFB sch a).rankScore =
      clampInt 0 100 (jsRound
        (match idxOf? a.incomeRange incomeRanges with
         | some i =>
           (if numOr0 a.gpa ≥ numOr0 sch.minGPA
            then (50 : Rat) + numOr0 a.gpa / 4 * 40 else 50) + ((5 : Rat) - (i : Rat)) * 4
         | none =>
           if numOr0 a.gpa ≥ numOr0 sch.minGPA
           then (50 : Rat) + numOr0 a.gpa / 4 * 40 else 50)) := rfl
  have hgpa : (50 : Rat) ≤
      (if numOr0 a.gpa ≥ numOr0 sch.minGPA
       then (50 : Rat) + numOr0 a.gpa / 4 * 40 else 50) := by
    by_cases h : numOr0 a.gpa ≥ numOr0 sch.minGPA
    · rw [if_pos h]
      have : (0 : Rat) ≤ numOr0 a.gpa / 4 * 40 := by positivity
      linarith
    · rw [if_neg h]
  have hbase : (50 : Rat) ≤
      (match idxOf? a.incomeRange incomeRanges with
       | some i =>
         (if numOr0 a.gpa ≥ numOr0 sch.minGPA
          then (50 : Rat) + numOr0 a.gpa / 4 * 40 else 50) + ((5 : Rat) - (i : Rat)) * 4
       | none =>
         if numOr0 a.gpa ≥ numOr0 sch.minGPA
         then (50 : Rat) + numOr0 a.gpa / 4 * 40 else 50) := by
    cases hi : idxOf? a.incomeRange incomeRanges with
    | none => exact hgpa
    | some i =>
      have hi5 : i < 5 := idxOf?_lt_length hi
      have hcast : ((i : Rat)) ≤ 4 := by
        have : (i : Rat) ≤ ((4 : Nat) : Rat) := by
          exact_mod_cast Nat.le_of_lt_succ hi5
        simpa using this
      have : (0 : Rat) ≤ ((5 : Rat) - (i : Rat)) * 4 := by nlinarith
      dsimp only
      linarith
  rw [hscore]
  apply clampInt_lower_of 0 100 _ 50 _ (by norm_num)
  apply le_jsRound
  exact_mod_cast hbase

/-- The fallback recommendation is determined by the rank score with a
threshold at 70. -/
lemma scoreApplicantFB_rec (sch : Scholarship) (a : Application) :
    (scoreApplicantFB sch a).recommendation =
      (if (scoreApplicantFB sch a).rankScore ≥ 70
       then "Recommended for Approval" else "Needs Review") := rfl

/-- C10: when every application's GPA coerces into [0, 4], every fallback
RankResult has rankScore in [50, 100] — the base score of 50 is only ever
increased — and a "Needs Review" recommendation can only occur for scores in
[50, 69]. -/
theorem c10_fallback_rank_floor (apps : List Application) (sch : Scholarship)
    (hgpa : ∀ a ∈ apps, 0 ≤ numOr0 a.gpa ∧ numOr0 a.gpa ≤ 4) :
    ∀ r ∈ performBasicRanking apps sch,
      (50 ≤ r.rankScore ∧ r.rankScore ≤ 100) ∧
      (r.recommendation = "Needs Review" → 50 ≤ r.rankScore ∧ r.rankScore ≤ 69) := by
  intro r hr
  unfold performBasicRanking at hr
  rcases mem_assignRanksFrom 0 _ r hr with ⟨q, hq, m, hm⟩
  rcases List.mem_map.mp ((List.mem_insertionSort RankLeR).mp hq) with ⟨a, ha, haq⟩
  have hscore : r.rankScore = (scoreApplicantFB sch a).rankScore := by rw [hm, ← haq]
  have hrec : r.recommendation = (scoreApplicantFB sch a).recommendation := by rw [hm, ← haq]
  have h50 : 50 ≤ (scoreApplicantFB sch a).rankScore :=
    scoreApplicantFB_rankScore_ge sch a (hgpa a ha).1
  have h100 : (scoreApplicantFB sch a).rankScore ≤ 100 :=
    clampInt_upper 0 100 _ (by norm_num)
  refine ⟨⟨by omega, by omega⟩, ?_⟩
  intro hneeds
  rw [hrec, scoreApplicantFB_rec] at hneeds
  by_cases h70 : (scoreApplicantFB sch a).rankScore ≥ 70
  · rw [if_pos h70] at hneeds
    exact absurd hneeds (by decide)
  · rw [hscore]
    omega

/-- C10 witness: the bound at a concrete one-applicant run. -/
theorem c10_fallback_rank_floor_witness :
    (∀ a ∈ [appX1], 0 ≤ numOr0 a.gpa ∧ numOr0 a.gpa ≤ 4) ∧
    ({ scoreApplicantFB schX appX1 with rank := ((0 : Nat) : Int) + 1 } ∈
        performBasicRanking [appX1] schX) ∧
    ((50 ≤ ({ scoreApplicantFB schX appX1 with rank := ((0 : Nat) : Int) + 1 } : RankResult).rankScore ∧
        ({ scoreApplicantFB schX appX1 with rank := ((0 : Nat) : Int) + 1 } : RankResult).rankScore ≤ 100) ∧
      (({ scoreApplicantFB schX appX1 with rank := ((0 : Nat) : Int) + 1 } : RankResult).recommendation = "Needs Review" →
        50 ≤ ({ scoreApplicantFB schX appX1 with rank := ((0 : Nat) : Int) + 1 } : RankResult).rankScore ∧
          ({ scoreApplicantFB schX appX1 with rank := ((0 : Nat) : Int) + 1 } : RankResult).rankScore ≤ 69)) := by
  have hhyp : ∀ a ∈ [appX1], 0 ≤ numOr0 a.gpa ∧ numOr0 a.gpa ≤ 4 := by decide
  have hk : ({ scoreApplicantFB schX appX1 with rank := ((0 : Nat) : Int) + 1 } : RankResult) ∈
      performBasicRanking [appX1] schX :=
    List.mem_singleton.mpr rfl
  exact ⟨hhyp, hk, c10_fallback_rank_floor [appX1] schX hhyp _ hk⟩

end GptMatching
